import Mathlib

/-!
Verification of the contact-form endpoint (`POST` handler in the source).

The handler is embedded shallowly: JavaScript truthiness is modelled on
`Option String` (absent or empty string is falsy), exceptions are modelled
by `Except JsError`, and the external effects (reading the request body,
`JSON.parse`, the Mailjet `fetch`, decoding its JSON body) are supplied as
oracles inside an `Invocation`.  The handler additionally reports the
outbound Mailjet payload it sent, if any, so that "no network call is
made" is directly statable.
-/

set_option maxRecDepth 100000

namespace ContactForm

/-- A JavaScript exception value: whether it is an `Error` instance
(`instanceof Error`), and its `message` property ("" models a missing or
empty message, which are interchangeable under JS truthiness). -/
structure JsError where
  isError : Bool
  message : String
deriving DecidableEq

/-- The environment variables the handler reads (`import.meta.env.*`);
`none` models an unset variable. -/
structure Env where
  MJ_APIKEY_PUBLIC : Option String
  MJ_APIKEY_PRIVATE : Option String
  CONTACT_EMAIL : Option String
  CC_EMAIL : Option String
  MJ_FROM_EMAIL : Option String
deriving DecidableEq

/-- The part of the `fetch` response the handler inspects. -/
structure FetchResponse where
  ok : Bool
deriving DecidableEq

/-- One entry of a Mailjet per-message `Errors` array. -/
structure MailjetError where
  ErrorMessage : Option String
deriving DecidableEq

/-- One entry of the Mailjet `Messages` array. -/
structure MailjetMessage where
  Errors : Option (List MailjetError)
deriving DecidableEq

/-- The decoded Mailjet JSON response body. -/
structure MailjetResult where
  ErrorMessage : Option String
  Messages : Option (List MailjetMessage)
deriving DecidableEq

/-- The destructured request body fields (line 51 of the source); `none`
models an absent key, `some ""` an empty string value. -/
structure SubmissionData where
  name : Option String
  email : Option String
  phone : Option String
  service : Option String
  eventDate : Option String
  message : Option String
  allergies : Option String
deriving DecidableEq

/-- The result of `JSON.parse` on the body: `null`, or an object carrying
the seven destructured fields. -/
inductive JsValue where
  | null : JsValue
  | obj : SubmissionData → JsValue
deriving DecidableEq

/-- One invocation of the handler: the environment plus the outcomes of
the four external effects, each of which may throw. -/
structure Invocation where
  env : Env
  bodyText : Except JsError String
  parseResult : Except JsError JsValue
  fetchResult : Except JsError FetchResponse
  jsonResult : Except JsError MailjetResult

/-- JS truthiness of an optional string: absent and `""` are falsy. -/
def jsTruthy : Option String → Bool
  | none => false
  | some s => !(s == "")

/-- JS `x || d` for an optional string `x` and string default `d`. -/
def jsOr : Option String → String → String
  | none, d => d
  | some s, d => if s == "" then d else s

/-- JS `x || d` for strings (an empty `x` is falsy). -/
def jsOrS (s d : String) : String :=
  if s == "" then d else s

/-- String interpolation of an optional value (`undefined` interpolates to
the text "undefined"; the handler only interpolates checked values). -/
def jsStr : Option String → String
  | none => "undefined"
  | some s => s

/-- The `htmlContent` template literal (source lines 70-80), with its
exact whitespace. -/
def htmlContent (d : SubmissionData) : String :=
  "\n\t\t\t<h2>New Contact Form Submission</h2>\n\t\t\t<p><strong>Name:</strong> " ++ jsStr d.name ++
  "</p>\n\t\t\t<p><strong>Email:</strong> " ++ jsStr d.email ++
  "</p>\n\t\t\t" ++ (if jsTruthy d.phone then "<p><strong>Phone:</strong> " ++ jsStr d.phone ++ "</p>" else "") ++
  "\n\t\t\t<p><strong>Service Type:</strong> " ++ jsStr d.service ++
  "</p>\n\t\t\t" ++ (if jsTruthy d.eventDate then "<p><strong>Event Date:</strong> " ++ jsStr d.eventDate ++ "</p>" else "") ++
  "\n\t\t\t<p><strong>Message:</strong></p>\n\t\t\t<p>" ++ jsOr d.message "No message provided" ++
  "</p>\n\t\t\t" ++ (if jsTruthy d.allergies then "<p><strong>Allergies/Dietary Requirements:</strong></p><p>" ++ jsStr d.allergies ++ "</p>" else "") ++
  "\n\t\t"

/-- The `textContent` template literal (source lines 82-95), with its
exact whitespace. -/
def textContent (d : SubmissionData) : String :=
  "\n\t\t\tNew Contact Form Submission\n\t\t\t\n\t\t\tName: " ++ jsStr d.name ++
  "\n\t\t\tEmail: " ++ jsStr d.email ++
  "\n\t\t\t" ++ (if jsTruthy d.phone then "Phone: " ++ jsStr d.phone else "") ++
  "\n\t\t\tService Type: " ++ jsStr d.service ++
  "\n\t\t\t" ++ (if jsTruthy d.eventDate then "Event Date: " ++ jsStr d.eventDate else "") ++
  "\n\t\t\t\n\t\t\tMessage:\n\t\t\t" ++ jsOr d.message "No message provided" ++
  "\n\t\t\t\n\t\t\t" ++ (if jsTruthy d.allergies then "Allergies/Dietary Requirements:\n" ++ jsStr d.allergies else "") ++
  "\n\t\t"

/-- An email address entry of the outbound Mailjet payload. -/
structure EmailAddress where
  Email : String
  Name : String
deriving DecidableEq

/-- The single message of the outbound Mailjet payload (source lines
106-136). -/
structure OutboundMessage where
  From : EmailAddress
  To : List EmailAddress
  Bcc : List EmailAddress
  Subject : String
  TextPart : String
  HTMLPart : String
  ReplyTo : EmailAddress
deriving DecidableEq

/-- The JSON body of the outbound `fetch` to the Mailjet send endpoint. -/
structure OutboundPayload where
  Messages : List OutboundMessage
deriving DecidableEq

/-- Builds the outbound payload exactly as source lines 106-136 do,
including the environment fallbacks of lines 66-68 and 111-112. -/
def mailjetPayload (env : Env) (d : SubmissionData) : OutboundPayload :=
  { Messages := [
      { From := { Email := jsOr env.MJ_FROM_EMAIL "noreply@tableofthree.com",
                  Name := "Table of Three Contact Form" },
        To := [{ Email := jsOr env.CONTACT_EMAIL "tableofthreecatering@gmail.com",
                 Name := "Table of Three" }],
        Bcc := [{ Email := jsOr env.CC_EMAIL "jp@arctic.studio", Name := "JP" }],
        Subject := "New Contact Form Submission - " ++ jsStr d.service,
        TextPart := textContent d,
        HTMLPart := htmlContent d,
        ReplyTo := { Email := jsStr d.email, Name := jsStr d.name } }] }

/-- The JSON response bodies the handler produces, as a record of the
fields that can occur (absent fields are `none`). -/
structure ResponseBody where
  success : Option Bool
  message : Option String
  error : Option String
  details : Option String
deriving DecidableEq

/-- An HTTP response: status code, `Content-Type` header value, JSON body. -/
structure Response where
  status : Nat
  contentType : String
  body : ResponseBody
deriving DecidableEq

/-- Source lines 13-22: missing Mailjet credentials. -/
def configErrorResponse : Response :=
  { status := 500, contentType := "application/json",
    body := { success := none, message := none,
              error := some "Email service not configured",
              details := some "Mailjet API keys are missing. Please configure MJ_APIKEY_PUBLIC and MJ_APIKEY_PRIVATE environment variables." } }

/-- Source lines 30-36: empty request body. -/
def emptyBodyResponse : Response :=
  { status := 400, contentType := "application/json",
    body := { success := none, message := none,
              error := some "Request body is empty", details := none } }

/-- Source lines 40-49: the inner catch around body reading and JSON
parsing (`parseError instanceof Error ? parseError.message : "Unknown error"`). -/
def parseErrorResponse (e : JsError) : Response :=
  { status := 400, contentType := "application/json",
    body := { success := none, message := none,
              error := some "Invalid JSON in request body",
              details := some (if e.isError then e.message else "Unknown error") } }

/-- Source lines 56-62: a required field is missing. -/
def missingFieldsResponse : Response :=
  { status := 400, contentType := "application/json",
    body := { success := none, message := none,
              error := some "Missing required fields", details := none } }

/-- Source lines 143-152: the success response. -/
def successResponse : Response :=
  { status := 200, contentType := "application/json",
    body := { success := some true, message := some "Email sent successfully",
              error := none, details := none } }

/-- Source lines 163-172: the outer catch (`error.message || "Unknown error"`). -/
def catchErrorResponse (e : JsError) : Response :=
  { status := 500, contentType := "application/json",
    body := { success := none, message := none,
              error := some "Failed to send email",
              details := some (jsOrS e.message "Unknown error") } }

/-- The optional chain `result.Messages?.[0]?.Errors?.[0]?.ErrorMessage`
of source line 157. -/
def chainedErrorMessage (r : MailjetResult) : Option String :=
  match r.Messages with
  | some (m :: _) =>
    match m.Errors with
    | some (er :: _) => er.ErrorMessage
    | _ => none
  | _ => none

/-- Source lines 155-158: the diagnostic extracted from a failed Mailjet
response (`result.ErrorMessage || chain || "Failed to send email"`). -/
def mailjetErrorMsg (r : MailjetResult) : String :=
  jsOr r.ErrorMessage (jsOr (chainedErrorMessage r) "Failed to send email")

/-- Source line 142: `result.Messages && result.Messages.length > 0`. -/
def messagesNonempty (r : MailjetResult) : Bool :=
  match r.Messages with
  | some l => decide (0 < l.length)
  | none => false

/-- The exception thrown when destructuring `null` (source line 51 when
the parsed body is JSON `null`): a runtime `TypeError`. -/
def nullDestructureError : JsError :=
  { isError := true, message := "Cannot destructure property of null" }

/-- Source lines 25-50: the inner try/catch that reads the body and
parses it.  Yields either an early response (empty body, or the inner
catch's 400) or the parsed value. -/
def parseStep (inv : Invocation) : Sum Response JsValue :=
  match inv.bodyText with
  | .error e => Sum.inl (parseErrorResponse e)
  | .ok body =>
    if body == "" then Sum.inl emptyBodyResponse
    else
      match inv.parseResult with
      | .error e => Sum.inl (parseErrorResponse e)
      | .ok v => Sum.inr v

/-- Source lines 98-160: the Mailjet call and result handling, entered
once the submission has been validated.  `fetch` and `json()` may throw;
a non-success result throws `new Error(errorMsg)` (line 159). -/
def fetchPhase (inv : Invocation) : Except JsError Response :=
  match inv.fetchResult with
  | .error e => .error e
  | .ok resp =>
    match inv.jsonResult with
    | .error e => .error e
    | .ok result =>
      if resp.ok && messagesNonempty result then
        .ok successResponse
      else
        .error { isError := true, message := mailjetErrorMsg result }

/-- The outer try block (source lines 7-160): either a response or a
thrown exception, paired with the outbound payload if the Mailjet call
was reached. -/
def tryPOST (inv : Invocation) : Except JsError Response × Option OutboundPayload :=
  if !(jsTruthy inv.env.MJ_APIKEY_PUBLIC) || !(jsTruthy inv.env.MJ_APIKEY_PRIVATE) then
    (.ok configErrorResponse, none)
  else
    match parseStep inv with
    | Sum.inl resp => (.ok resp, none)
    | Sum.inr JsValue.null => (.error nullDestructureError, none)
    | Sum.inr (JsValue.obj d) =>
      if !(jsTruthy d.name) || !(jsTruthy d.email) || !(jsTruthy d.service) then
        (.ok missingFieldsResponse, none)
      else
        (fetchPhase inv, some (mailjetPayload inv.env d))

/-- The `POST` handler (source lines 6-174): the try block with the outer
catch wrapped around it. -/
def POST (inv : Invocation) : Response :=
  match (tryPOST inv).1 with
  | .ok r => r
  | .error e => catchErrorResponse e

/-- The Mailjet payload sent during an invocation (`none` when the
outbound call is never reached). -/
def sentPayload (inv : Invocation) : Option OutboundPayload :=
  (tryPOST inv).2

end ContactForm

namespace ContactForm

/-- `starts p l`: `p` is a prefix of `l` (character lists). -/
def starts : List Char → List Char → Bool
  | [], _ => true
  | _ :: _, [] => false
  | c :: p, d :: l => c == d && starts p l

/-- `endsW p l`: `p` is a suffix of `l`. -/
def endsW (p l : List Char) : Bool :=
  starts p.reverse l.reverse

/-- `occurs p l`: `p` occurs contiguously inside `l`. -/
def occurs (p : List Char) : List Char → Bool
  | [] => p.isEmpty
  | c :: t => starts p (c :: t) || occurs p t

/-- `containsStr hay pat`: the string `pat` occurs inside `hay`. -/
def containsStr (hay pat : String) : Bool :=
  occurs pat.data hay.data

theorem data_app (a b : String) : (a ++ b).data = a.data ++ b.data := by
  cases a; cases b; rfl

theorem starts_self_app (p b : List Char) : starts p (p ++ b) = true := by
  induction p with
  | nil => rfl
  | cons c p ih => simp [starts, ih]

theorem starts_refl (p : List Char) : starts p p = true := by
  simpa using starts_self_app p []

theorem starts_nil_right (p : List Char) : starts p [] = p.isEmpty := by
  cases p <;> rfl

theorem occurs_of_starts (p l : List Char) (h : starts p l = true) :
    occurs p l = true := by
  cases l with
  | nil => rw [occurs, ← starts_nil_right]; exact h
  | cons c t => simp [occurs, h]

theorem occurs_cons (p : List Char) (c : Char) (t : List Char)
    (h : occurs p t = true) : occurs p (c :: t) = true := by
  simp [occurs, h]

theorem occurs_appR (p a b : List Char) (h : occurs p b = true) :
    occurs p (a ++ b) = true := by
  induction a with
  | nil => simpa using h
  | cons c a ih => exact occurs_cons p c (a ++ b) ih

theorem starts_app_of_starts (a : List Char) :
    ∀ p b, starts p a = true → starts p (a ++ b) = true := by
  induction a with
  | nil =>
    intro p b h
    have hp : p = [] := by simpa [starts_nil_right] using h
    subst hp; rfl
  | cons c a ih =>
    intro p b h
    cases p with
    | nil => rfl
    | cons x p =>
      rw [List.cons_append]
      rw [starts, Bool.and_eq_true] at h ⊢
      exact ⟨h.1, ih p b h.2⟩

theorem occurs_appL (p a b : List Char) (h : occurs p a = true) :
    occurs p (a ++ b) = true := by
  induction a with
  | nil =>
    rw [occurs] at h
    have hp : p = [] := by simpa using h
    subst hp
    exact occurs_of_starts [] b rfl
  | cons c a ih =>
    rw [occurs, Bool.or_eq_true] at h
    rcases h with h | h
    · exact occurs_of_starts p ((c :: a) ++ b) (starts_app_of_starts (c :: a) p b h)
    · exact occurs_cons p c (a ++ b) (ih h)

theorem occurs_pref (p b : List Char) : occurs p (p ++ b) = true :=
  occurs_of_starts p (p ++ b) (starts_self_app p b)

end ContactForm

namespace ContactForm

theorem starts_app_long (a : List Char) :
    ∀ p b, starts p (a ++ b) = true → a.length ≤ p.length →
      p.take a.length = a ∧ starts (p.drop a.length) b = true := by
  induction a with
  | nil => intro p b h _; simpa using h
  | cons c a ih =>
    intro p b h hlen
    cases p with
    | nil => simp at hlen
    | cons x p =>
      rw [List.cons_append, starts, Bool.and_eq_true] at h
      have hx : x = c := by simpa using h.1
      subst hx
      have := ih p b h.2 (by simpa using hlen)
      exact ⟨by simpa [List.take] using this.1, by simpa [List.drop] using this.2⟩

theorem starts_app_short (a : List Char) :
    ∀ p b, starts p (a ++ b) = true → p.length ≤ a.length → starts p a = true := by
  induction a with
  | nil =>
    intro p b h hlen
    have hp : p = [] := List.eq_nil_of_length_eq_zero (Nat.le_zero.mp (by simpa using hlen))
    subst hp; rfl
  | cons c a ih =>
    intro p b h hlen
    cases p with
    | nil => rfl
    | cons x p =>
      rw [List.cons_append, starts, Bool.and_eq_true] at h
      rw [starts, Bool.and_eq_true]
      exact ⟨h.1, ih p b h.2 (by simpa using hlen)⟩

theorem endsW_self (x : List Char) : endsW x x = true :=
  starts_refl x.reverse

theorem endsW_cons (x : List Char) (c : Char) (t : List Char)
    (h : endsW x t = true) : endsW x (c :: t) = true := by
  rw [endsW, List.reverse_cons]
  exact starts_app_of_starts t.reverse x.reverse [c] h

theorem starts_head (p a b : List Char) (hp : p ≠ []) (ha : a ≠ [])
    (h : starts p (a ++ b) = true) : p.head? = a.head? := by
  cases p with
  | nil => exact absurd rfl hp
  | cons c p =>
    cases a with
    | nil => exact absurd rfl ha
    | cons d a =>
      rw [List.cons_append, starts, Bool.and_eq_true] at h
      have : c = d := by simpa using h.1
      simp [this]

theorem occurs_app_split (p : List Char) :
    ∀ a b, occurs p (a ++ b) = true →
      occurs p a = true ∨ occurs p b = true ∨
      ∃ i, 0 < i ∧ i < p.length ∧ endsW (p.take i) a = true ∧
        starts (p.drop i) b = true := by
  intro a
  induction a with
  | nil => intro b h; right; left; simpa using h
  | cons c a ih =>
    intro b h
    rw [List.cons_append, occurs, Bool.or_eq_true] at h
    rcases h with h | h
    · rw [← List.cons_append] at h
      by_cases hlen : p.length ≤ (c :: a).length
      · left
        exact occurs_of_starts p (c :: a) (starts_app_short (c :: a) p b h hlen)
      · push_neg at hlen
        have h2 := starts_app_long (c :: a) p b h (le_of_lt hlen)
        right; right
        refine ⟨(c :: a).length, by simp, hlen, ?_, h2.2⟩
        rw [h2.1]
        exact endsW_self (c :: a)
    · rcases ih b h with h1 | h1 | ⟨i, hi0, hip, he, hs⟩
      · left; exact occurs_cons p c a h1
      · right; left; exact h1
      · exact Or.inr (Or.inr ⟨i, hi0, hip, endsW_cons (p.take i) c a he, hs⟩)

theorem noOccur_app (p a b : List Char)
    (ha : occurs p a = false) (hb : occurs p b = false)
    (hstr : ∀ i, 0 < i → i < p.length →
      endsW (p.take i) a = false ∨ starts (p.drop i) b = false) :
    occurs p (a ++ b) = false := by
  by_contra h
  rw [Bool.not_eq_false] at h
  rcases occurs_app_split p a b h with h1 | h1 | ⟨i, hi0, hip, he, hs⟩
  · rw [ha] at h1; exact Bool.false_ne_true h1
  · rw [hb] at h1; exact Bool.false_ne_true h1
  · rcases hstr i hi0 hip with hx | hx
    · rw [hx] at he; exact Bool.false_ne_true he
    · rw [hx] at hs; exact Bool.false_ne_true hs

theorem noOccur_fixPart (p F rest : List Char)
    (hF : occurs p F = false)
    (hend : ∀ j, j < p.length - 1 → endsW (p.take (j + 1)) F = false)
    (htail : occurs p rest = false) :
    occurs p (F ++ rest) = false := by
  apply noOccur_app p F rest hF htail
  intro i hi0 hip
  left
  obtain ⟨j, rfl⟩ : ∃ j, i = j + 1 := ⟨i - 1, by omega⟩
  exact hend j (by omega)

theorem noOccur_varPart (p n F rest : List Char)
    (hn : occurs p n = false)
    (hF : F ≠ [])
    (hhead : ∀ j, j < p.length - 1 → (p.drop (j + 1)).head? ≠ F.head?)
    (htail : occurs p (F ++ rest) = false) :
    occurs p (n ++ (F ++ rest)) = false := by
  apply noOccur_app p n (F ++ rest) hn htail
  intro i hi0 hip
  right
  obtain ⟨j, rfl⟩ : ∃ j, i = j + 1 := ⟨i - 1, by omega⟩
  by_contra hx
  rw [Bool.not_eq_false] at hx
  have hne : p.drop (j + 1) ≠ [] := by
    intro hnil
    have := congrArg List.length hnil
    simp at this
    omega
  exact hhead j (by omega) (starts_head (p.drop (j + 1)) F rest hne hF hx)

end ContactForm

namespace ContactForm

theorem jsTruthy_some {s : String} (h : s ≠ "") : jsTruthy (some s) = true := by
  simp [jsTruthy, h]

theorem jsOr_ne {o : Option String} {d : String} (hd : d ≠ "") : jsOr o d ≠ "" := by
  cases o with
  | none => exact hd
  | some s =>
    rw [jsOr]
    by_cases hs : s == ""
    · rw [if_pos hs]; exact hd
    · rw [if_neg hs]; simpa using hs

theorem mailjetErrorMsg_ne (r : MailjetResult) : mailjetErrorMsg r ≠ "" :=
  jsOr_ne (jsOr_ne (by simp))

theorem jsOrS_of_ne {s : String} (d : String) (h : s ≠ "") : jsOrS s d = s := by
  rw [jsOrS, if_neg (by simpa using h)]

/-- Inverting the parse step: if it produced a value, the body was read
successfully, was non-empty, and parsed to that value. -/
theorem parseStep_inr (inv : Invocation) (v : JsValue)
    (h : parseStep inv = Sum.inr v) :
    inv.parseResult = .ok v ∧ ∃ b, inv.bodyText = .ok b ∧ b ≠ "" := by
  rw [parseStep] at h
  split at h
  next e heq => exact absurd h (by simp)
  next b heq =>
    split at h
    next hb => exact absurd h (by simp)
    next hb =>
      split at h
      next e heq2 => exact absurd h (by simp)
      next w heq2 =>
        have hv : w = v := by simpa using h
        subst hv
        exact ⟨heq2, b, heq, by simpa using hb⟩

/-- Inverting a sent payload: the Mailjet call is reached exactly when the
credentials are set, the body parsed to an object, and the required fields
are truthy; the payload sent is `mailjetPayload` and the try block's
outcome is the fetch phase's. -/
theorem sentPayload_some (inv : Invocation) (pl : OutboundPayload)
    (h : sentPayload inv = some pl) :
    ∃ d, parseStep inv = Sum.inr (JsValue.obj d) ∧
      jsTruthy inv.env.MJ_APIKEY_PUBLIC = true ∧
      jsTruthy inv.env.MJ_APIKEY_PRIVATE = true ∧
      jsTruthy d.name = true ∧ jsTruthy d.email = true ∧
      jsTruthy d.service = true ∧
      pl = mailjetPayload inv.env d ∧
      tryPOST inv = (fetchPhase inv, some (mailjetPayload inv.env d)) := by
  rw [sentPayload, tryPOST] at h
  by_cases hc : (!(jsTruthy inv.env.MJ_APIKEY_PUBLIC) || !(jsTruthy inv.env.MJ_APIKEY_PRIVATE)) = true
  · rw [if_pos hc] at h; exact absurd h (by simp)
  · rw [if_neg hc] at h
    have hc2 : jsTruthy inv.env.MJ_APIKEY_PUBLIC = true ∧
        jsTruthy inv.env.MJ_APIKEY_PRIVATE = true := by
      simpa using hc
    split at h
    next resp heq => exact absurd h (by simp)
    next heq => exact absurd h (by simp)
    next d heq =>
      by_cases hf : (!(jsTruthy d.name) || !(jsTruthy d.email) || !(jsTruthy d.service)) = true
      · rw [if_pos hf] at h; exact absurd h (by simp)
      · rw [if_neg hf] at h
        have hf2 : (jsTruthy d.name = true ∧ jsTruthy d.email = true) ∧
            jsTruthy d.service = true := by
          simpa using hf
        have hpl : pl = mailjetPayload inv.env d := by
          have := h
          simp at this
          exact this.symm
        refine ⟨d, heq, hc2.1, hc2.2, hf2.1.1, hf2.1.2, hf2.2, hpl, ?_⟩
        rw [tryPOST, if_neg hc, heq]
        exact if_neg hf

/-- The handler's response when the try block returned normally. -/
theorem POST_ok (inv : Invocation) (r : Response) (pl : Option OutboundPayload)
    (h : tryPOST inv = (.ok r, pl)) : POST inv = r := by
  have h1 : (tryPOST inv).1 = .ok r := by rw [h]
  rw [POST, h1]

/-- The handler's response when the try block threw: the outer catch. -/
theorem POST_err (inv : Invocation) (e : JsError) (pl : Option OutboundPayload)
    (h : tryPOST inv = (.error e, pl)) : POST inv = catchErrorResponse e := by
  have h1 : (tryPOST inv).1 = .error e := by rw [h]
  rw [POST, h1]

end ContactForm

namespace ContactForm

theorem jsStr_some (s : String) : jsStr (some s) = s := rfl

theorem jsOr_some_ne {s : String} (d : String) (h : s ≠ "") : jsOr (some s) d = s := by
  rw [jsOr, if_neg (by simpa using h)]

theorem data_nil : ("" : String).data = [] := rfl

theorem occurs_self (p : List Char) : occurs p p = true :=
  occurs_of_starts p p (starts_refl p)

/-- The try block once the credentials are known to be set. -/
theorem tryPOST_creds (inv : Invocation)
    (hpub : jsTruthy inv.env.MJ_APIKEY_PUBLIC = true)
    (hpriv : jsTruthy inv.env.MJ_APIKEY_PRIVATE = true) :
    tryPOST inv = match parseStep inv with
      | Sum.inl resp => (.ok resp, none)
      | Sum.inr JsValue.null => (.error nullDestructureError, none)
      | Sum.inr (JsValue.obj d) =>
        if !(jsTruthy d.name) || !(jsTruthy d.email) || !(jsTruthy d.service) then
          (.ok missingFieldsResponse, none)
        else (fetchPhase inv, some (mailjetPayload inv.env d)) := by
  rw [tryPOST]
  exact if_neg (by simp [hpub, hpriv])

/-- The parse step when the body reads as non-empty text. -/
theorem parseStep_readOk (inv : Invocation) (b : String)
    (hbody : inv.bodyText = .ok b) (hb : b ≠ "") :
    parseStep inv = match inv.parseResult with
      | .error e => Sum.inl (parseErrorResponse e)
      | .ok v => Sum.inr v := by
  rw [parseStep, hbody]
  exact if_neg (by simpa using hb)

/-- C4: if either Mailjet credential is absent (or empty, which JS
truthiness treats identically), the handler answers with the
misconfiguration response, status 500, and no outbound call is made; the
response does not depend on the request body, the parse outcome, or the
provider oracles, since the invocation is otherwise arbitrary. -/
theorem claim_C4_missing_credentials (inv : Invocation)
    (h : jsTruthy inv.env.MJ_APIKEY_PUBLIC = false ∨
      jsTruthy inv.env.MJ_APIKEY_PRIVATE = false) :
    POST inv = configErrorResponse ∧ (POST inv).status = 500 ∧
      sentPayload inv = none := by
  have hc : (!(jsTruthy inv.env.MJ_APIKEY_PUBLIC) ||
      !(jsTruthy inv.env.MJ_APIKEY_PRIVATE)) = true := by
    rcases h with h | h <;> simp [h]
  have ht : tryPOST inv = (.ok configErrorResponse, none) := by
    rw [tryPOST, if_pos hc]
  refine ⟨POST_ok inv _ _ ht, ?_, ?_⟩
  · rw [POST_ok inv _ _ ht]; rfl
  · rw [sentPayload, ht]

/-- A fully-populated well-formed submission, used as concrete input. -/
def dFull : SubmissionData :=
  { name := some "Alice Smith", email := some "alice@example.com",
    phone := some "555-0100", service := some "Wedding Catering",
    eventDate := some "2026-06-01", message := some "Dinner for forty guests",
    allergies := some "peanuts" }

/-- An environment with both credentials set and no optional overrides. -/
def envFull : Env :=
  { MJ_APIKEY_PUBLIC := some "pub-key", MJ_APIKEY_PRIVATE := some "priv-key",
    CONTACT_EMAIL := none, CC_EMAIL := none, MJ_FROM_EMAIL := none }

/-- A successful Mailjet result. -/
def mjOK : MailjetResult :=
  { ErrorMessage := none, Messages := some [{ Errors := none }] }

/-- A well-formed invocation whose environment lacks the public key. -/
def invC4 : Invocation :=
  { env := { MJ_APIKEY_PUBLIC := none, MJ_APIKEY_PRIVATE := some "priv-key",
             CONTACT_EMAIL := none, CC_EMAIL := none, MJ_FROM_EMAIL := none },
    bodyText := .ok "\x7b\x7d",
    parseResult := .ok (JsValue.obj dFull),
    fetchResult := .ok { ok := true },
    jsonResult := .ok mjOK }

/-- Witness for C4 at a concrete well-formed invocation. -/
theorem claim_C4_witness :
    POST invC4 = configErrorResponse ∧ (POST invC4).status = 500 ∧
      sentPayload invC4 = none :=
  claim_C4_missing_credentials invC4 (Or.inl rfl)

end ContactForm

namespace ContactForm

/-- C5: with credentials configured, a body that parses to an object
missing any required field (absent or empty string, the falsy check of
source line 55) yields the 400 missing-fields response with an error
field, and no outbound call is made. -/
theorem claim_C5_missing_required_fields (inv : Invocation) (b : String)
    (d : SubmissionData)
    (hpub : jsTruthy inv.env.MJ_APIKEY_PUBLIC = true)
    (hpriv : jsTruthy inv.env.MJ_APIKEY_PRIVATE = true)
    (hbody : inv.bodyText = .ok b) (hb : b ≠ "")
    (hparse : inv.parseResult = .ok (JsValue.obj d))
    (hmiss : jsTruthy d.name = false ∨ jsTruthy d.email = false ∨
      jsTruthy d.service = false) :
    POST inv = missingFieldsResponse ∧ (POST inv).status = 400 ∧
      (POST inv).body.error = some "Missing required fields" ∧
      sentPayload inv = none := by
  have hps : parseStep inv = Sum.inr (JsValue.obj d) := by
    rw [parseStep_readOk inv b hbody hb, hparse]
  have hf : (!(jsTruthy d.name) || !(jsTruthy d.email) || !(jsTruthy d.service)) = true := by
    rcases hmiss with h | h | h <;> simp [h]
  have ht : tryPOST inv = (.ok missingFieldsResponse, none) := by
    rw [tryPOST_creds inv hpub hpriv, hps]
    exact if_pos hf
  refine ⟨POST_ok inv _ _ ht, ?_, ?_, ?_⟩
  · rw [POST_ok inv _ _ ht]; rfl
  · rw [POST_ok inv _ _ ht]; rfl
  · rw [sentPayload, ht]

/-- A submission with the required `name` field absent. -/
def dNoName : SubmissionData :=
  { name := none, email := some "alice@example.com", phone := none,
    service := some "Wedding Catering", eventDate := none,
    message := none, allergies := none }

/-- An invocation carrying a parsed object that lacks `name`. -/
def invC5 : Invocation :=
  { env := envFull,
    bodyText := .ok "\x7b\x7d",
    parseResult := .ok (JsValue.obj dNoName),
    fetchResult := .ok { ok := true },
    jsonResult := .ok mjOK }

/-- Witness for C5 at a concrete invocation. -/
theorem claim_C5_witness :
    POST invC5 = missingFieldsResponse ∧ (POST invC5).status = 400 ∧
      (POST invC5).body.error = some "Missing required fields" ∧
      sentPayload invC5 = none :=
  claim_C5_missing_required_fields invC5 "\x7b\x7d" dNoName rfl rfl rfl
    (by decide) rfl (Or.inl rfl)

/-- C6: with credentials configured, an empty body yields the 400
empty-body response; a non-empty body whose parse throws an `Error`
yields the 400 invalid-JSON response whose details field is the parser's
diagnostic message. -/
theorem claim_C6_bad_body (inv : Invocation)
    (hpub : jsTruthy inv.env.MJ_APIKEY_PUBLIC = true)
    (hpriv : jsTruthy inv.env.MJ_APIKEY_PRIVATE = true) :
    (inv.bodyText = .ok "" →
      POST inv = emptyBodyResponse ∧ (POST inv).status = 400) ∧
    (∀ b e, inv.bodyText = .ok b → b ≠ "" → inv.parseResult = .error e →
      e.isError = true →
      POST inv = parseErrorResponse e ∧ (POST inv).status = 400 ∧
        (POST inv).body.details = some e.message) := by
  constructor
  · intro hbody
    have hps : parseStep inv = Sum.inl emptyBodyResponse := by
      rw [parseStep, hbody]
      exact if_pos rfl
    have ht : tryPOST inv = (.ok emptyBodyResponse, none) := by
      rw [tryPOST_creds inv hpub hpriv, hps]
    refine ⟨POST_ok inv _ _ ht, ?_⟩
    rw [POST_ok inv _ _ ht]; rfl
  · intro b e hbody hb hparse hE
    have hps : parseStep inv = Sum.inl (parseErrorResponse e) := by
      rw [parseStep_readOk inv b hbody hb, hparse]
    have ht : tryPOST inv = (.ok (parseErrorResponse e), none) := by
      rw [tryPOST_creds inv hpub hpriv, hps]
    refine ⟨POST_ok inv _ _ ht, ?_, ?_⟩
    · rw [POST_ok inv _ _ ht]; rfl
    · rw [POST_ok inv _ _ ht, parseErrorResponse]
      simp [hE]

/-- An invocation whose body is empty text. -/
def invC6a : Invocation :=
  { env := envFull, bodyText := .ok "",
    parseResult := .ok (JsValue.obj dFull),
    fetchResult := .ok { ok := true }, jsonResult := .ok mjOK }

/-- An invocation whose non-empty body fails to parse. -/
def invC6b : Invocation :=
  { env := envFull, bodyText := .ok "not json",
    parseResult := .error { isError := true,
                            message := "Unexpected token o in JSON at position 1" },
    fetchResult := .ok { ok := true }, jsonResult := .ok mjOK }

/-- Witness for C6 at concrete invocations, one per branch. -/
theorem claim_C6_witness :
    POST invC6a = emptyBodyResponse ∧
    (POST invC6b).status = 400 ∧
    (POST invC6b).body.details =
      some "Unexpected token o in JSON at position 1" := by
  refine ⟨((claim_C6_bad_body invC6a rfl rfl).1 rfl).1, ?_, ?_⟩
  · exact ((claim_C6_bad_body invC6b rfl rfl).2 "not json"
      { isError := true, message := "Unexpected token o in JSON at position 1" }
      rfl (by decide) rfl rfl).2.1
  · exact ((claim_C6_bad_body invC6b rfl rfl).2 "not json"
      { isError := true, message := "Unexpected token o in JSON at position 1" }
      rfl (by decide) rfl rfl).2.2

end ContactForm

namespace ContactForm

/-- C1: whenever the Mailjet call was made (`sentPayload` is `some`) and
its response has an ok status and a non-empty `Messages` list, the handler
answers with exactly the success body and status 200. -/
theorem claim_C1_success (inv : Invocation) (pl : OutboundPayload)
    (fr : FetchResponse) (res : MailjetResult) (msgs : List MailjetMessage)
    (hsent : sentPayload inv = some pl)
    (hfetch : inv.fetchResult = .ok fr) (hok : fr.ok = true)
    (hjson : inv.jsonResult = .ok res)
    (hmsgs : res.Messages = some msgs) (hne : msgs ≠ []) :
    POST inv = successResponse := by
  obtain ⟨d, _, _, _, _, _, _, _, ht⟩ := sentPayload_some inv pl hsent
  have hfp : fetchPhase inv = .ok successResponse := by
    rw [fetchPhase, hfetch, hjson]
    exact if_pos (by simp [hok, messagesNonempty, hmsgs, List.length_pos, hne])
  exact POST_ok inv _ _ (by rw [ht, hfp])

/-- A well-formed invocation whose provider call succeeds. -/
def invC1 : Invocation :=
  { env := envFull, bodyText := .ok "\x7b\x7d",
    parseResult := .ok (JsValue.obj dFull),
    fetchResult := .ok { ok := true }, jsonResult := .ok mjOK }

/-- Witness for C1 at a concrete invocation. -/
theorem claim_C1_witness : POST invC1 = successResponse :=
  claim_C1_success invC1 (mailjetPayload envFull dFull) { ok := true } mjOK
    [{ Errors := none }] rfl rfl rfl rfl rfl (by decide)

/-- C2: whenever the Mailjet call was made and its response has a non-ok
status or a missing or empty `Messages` list, the handler answers with
status 500 and a details field equal to `mailjetErrorMsg` of the result:
the top-level `ErrorMessage` when truthy, else the first message's first
error's `ErrorMessage` when truthy, else "Failed to send email". -/
theorem claim_C2_provider_failure (inv : Invocation) (pl : OutboundPayload)
    (fr : FetchResponse) (res : MailjetResult)
    (hsent : sentPayload inv = some pl)
    (hfetch : inv.fetchResult = .ok fr)
    (hjson : inv.jsonResult = .ok res)
    (hfail : fr.ok = false ∨ res.Messages = none ∨ res.Messages = some []) :
    POST inv = catchErrorResponse { isError := true, message := mailjetErrorMsg res } ∧
      (POST inv).status = 500 ∧
      (POST inv).body.details = some (mailjetErrorMsg res) := by
  obtain ⟨d, _, _, _, _, _, _, _, ht⟩ := sentPayload_some inv pl hsent
  have hcond : (fr.ok && messagesNonempty res) = false := by
    rcases hfail with h | h | h <;> simp [h, messagesNonempty]
  have hfp : fetchPhase inv =
      .error { isError := true, message := mailjetErrorMsg res } := by
    rw [fetchPhase, hfetch, hjson]
    exact if_neg (by simp [hcond])
  have hp := POST_err inv _ _ (show tryPOST inv =
    (.error { isError := true, message := mailjetErrorMsg res },
      some (mailjetPayload inv.env d)) by rw [ht, hfp])
  refine ⟨hp, ?_, ?_⟩
  · rw [hp]; rfl
  · rw [hp, catchErrorResponse]
    simp [jsOrS_of_ne _ (mailjetErrorMsg_ne res)]

/-- A failed Mailjet result carrying a top-level error message. -/
def mjBad : MailjetResult :=
  { ErrorMessage := some "Invalid credentials", Messages := some [] }

/-- A well-formed invocation whose provider call fails. -/
def invC2 : Invocation :=
  { env := envFull, bodyText := .ok "\x7b\x7d",
    parseResult := .ok (JsValue.obj dFull),
    fetchResult := .ok { ok := false }, jsonResult := .ok mjBad }

/-- Witness for C2 at a concrete invocation. -/
theorem claim_C2_witness :
    POST invC2 =
      catchErrorResponse { isError := true, message := mailjetErrorMsg mjBad } ∧
    (POST invC2).status = 500 ∧
    (POST invC2).body.details = some (mailjetErrorMsg mjBad) :=
  claim_C2_provider_failure invC2 (mailjetPayload envFull dFull)
    { ok := false } mjBad rfl rfl rfl (Or.inl rfl)

end ContactForm

namespace ContactForm

/-- An invocation with credentials set whose body fails to parse: the
exception is caught by the inner catch of source lines 27-50. -/
def invC3 : Invocation :=
  { env := envFull, bodyText := .ok "\x7b",
    parseResult := .error { isError := true,
                            message := "Unexpected end of JSON input" },
    fetchResult := .ok { ok := true }, jsonResult := .ok mjOK }

/-- C3 counterexample: an exception raised during parsing is caught by
the inner boundary and converted to status 400, not 500 as the claim
states. -/
theorem claim_C3_counterexample :
    (∃ e, invC3.parseResult = Except.error e) ∧
      (POST invC3).status = 400 ∧ ¬((POST invC3).status = 500) :=
  ⟨⟨{ isError := true, message := "Unexpected end of JSON input" }, rfl⟩,
    rfl, by decide⟩

/-- C3 (amended): every exception that escapes the try block is caught at
the outer boundary and becomes a status-500 response whose details is the
exception's message, or "Unknown error" when the message is empty;
exceptions during body reading or JSON parsing are instead caught at the
inner boundary and become the status-400 invalid-JSON response; exceptions
from the network call, from response decoding, and from destructuring a
null body all escape to the outer boundary.  The handler is a total
function, so no exception propagates out of it. -/
theorem claim_C3_exception_boundaries (inv : Invocation) :
    (∀ e, (tryPOST inv).1 = .error e →
      POST inv = catchErrorResponse e ∧ (POST inv).status = 500 ∧
        (POST inv).body.details = some (jsOrS e.message "Unknown error")) ∧
    (∀ b e, jsTruthy inv.env.MJ_APIKEY_PUBLIC = true →
      jsTruthy inv.env.MJ_APIKEY_PRIVATE = true →
      inv.bodyText = .ok b → b ≠ "" → inv.parseResult = .error e →
      POST inv = parseErrorResponse e ∧ (POST inv).status = 400) ∧
    (∀ e, jsTruthy inv.env.MJ_APIKEY_PUBLIC = true →
      jsTruthy inv.env.MJ_APIKEY_PRIVATE = true →
      inv.bodyText = .error e →
      POST inv = parseErrorResponse e ∧ (POST inv).status = 400) ∧
    (∀ e pl, sentPayload inv = some pl → inv.fetchResult = .error e →
      POST inv = catchErrorResponse e) ∧
    (∀ e fr pl, sentPayload inv = some pl → inv.fetchResult = .ok fr →
      inv.jsonResult = .error e → POST inv = catchErrorResponse e) ∧
    (jsTruthy inv.env.MJ_APIKEY_PUBLIC = true →
      jsTruthy inv.env.MJ_APIKEY_PRIVATE = true →
      parseStep inv = Sum.inr JsValue.null →
      POST inv = catchErrorResponse nullDestructureError) := by
  refine ⟨?_, ?_, ?_, ?_, ?_, ?_⟩
  · intro e h
    have hp : POST inv = catchErrorResponse e := by rw [POST, h]
    exact ⟨hp, by rw [hp]; rfl, by rw [hp]; rfl⟩
  · intro b e hpub hpriv hbody hb hparse
    have hps : parseStep inv = Sum.inl (parseErrorResponse e) := by
      rw [parseStep_readOk inv b hbody hb, hparse]
    have ht : tryPOST inv = (.ok (parseErrorResponse e), none) := by
      rw [tryPOST_creds inv hpub hpriv, hps]
    exact ⟨POST_ok inv _ _ ht, by rw [POST_ok inv _ _ ht]; rfl⟩
  · intro e hpub hpriv hbody
    have hps : parseStep inv = Sum.inl (parseErrorResponse e) := by
      rw [parseStep, hbody]
    have ht : tryPOST inv = (.ok (parseErrorResponse e), none) := by
      rw [tryPOST_creds inv hpub hpriv, hps]
    exact ⟨POST_ok inv _ _ ht, by rw [POST_ok inv _ _ ht]; rfl⟩
  · intro e pl hsent hfetch
    obtain ⟨d, _, _, _, _, _, _, _, ht⟩ := sentPayload_some inv pl hsent
    have hfp : fetchPhase inv = .error e := by rw [fetchPhase, hfetch]
    exact POST_err inv _ _ (by rw [ht, hfp])
  · intro e fr pl hsent hfetch hjson
    obtain ⟨d, _, _, _, _, _, _, _, ht⟩ := sentPayload_some inv pl hsent
    have hfp : fetchPhase inv = .error e := by rw [fetchPhase, hfetch, hjson]
    exact POST_err inv _ _ (by rw [ht, hfp])
  · intro hpub hpriv hps
    have ht : tryPOST inv = (.error nullDestructureError, none) := by
      rw [tryPOST_creds inv hpub hpriv, hps]
    exact POST_err inv _ _ ht

/-- A validated invocation whose `fetch` call throws. -/
def invC3f : Invocation :=
  { env := envFull, bodyText := .ok "\x7b\x7d",
    parseResult := .ok (JsValue.obj dFull),
    fetchResult := .error { isError := true, message := "network down" },
    jsonResult := .ok mjOK }

/-- An invocation whose body read (`request.text()`) throws. -/
def invC3r : Invocation :=
  { env := envFull,
    bodyText := .error { isError := true,
                         message := "Failed to read request body" },
    parseResult := .ok (JsValue.obj dFull),
    fetchResult := .ok { ok := true }, jsonResult := .ok mjOK }

/-- Witness for the amended C3 at concrete invocations: a parse exception
and a body-read exception each become the 400 invalid-JSON response, and
a network exception becomes the 500 outer-catch response. -/
theorem claim_C3_witness :
    POST invC3 =
      parseErrorResponse
        { isError := true, message := "Unexpected end of JSON input" } ∧
    POST invC3r =
      parseErrorResponse
        { isError := true, message := "Failed to read request body" } ∧
    POST invC3f =
      catchErrorResponse { isError := true, message := "network down" } := by
  refine ⟨?_, ?_, ?_⟩
  · exact ((claim_C3_exception_boundaries invC3).2.1 "\x7b"
      { isError := true, message := "Unexpected end of JSON input" }
      rfl rfl rfl (by decide) rfl).1
  · exact ((claim_C3_exception_boundaries invC3r).2.2.1
      { isError := true, message := "Failed to read request body" }
      rfl rfl rfl).1
  · exact (claim_C3_exception_boundaries invC3f).2.2.2.1
      { isError := true, message := "network down" }
      (mailjetPayload envFull dFull) rfl rfl

end ContactForm

namespace ContactForm

/-- The parse step yields an early response only of the two 400 forms. -/
theorem parseStep_inl_cases (inv : Invocation) (resp : Response)
    (h : parseStep inv = Sum.inl resp) :
    resp = emptyBodyResponse ∨ ∃ e, resp = parseErrorResponse e := by
  rw [parseStep] at h
  split at h
  next e heq => exact Or.inr ⟨e, by simpa using h.symm⟩
  next b heq =>
    split at h
    next hb => exact Or.inl (by simpa using h.symm)
    next hb =>
      split at h
      next e heq2 => exact Or.inr ⟨e, by simpa using h.symm⟩
      next w heq2 => exact absurd h (by simp)

/-- The try block only ever yields one of the five literal responses or a
thrown exception. -/
theorem tryPOST_cases (inv : Invocation) :
    (tryPOST inv).1 = .ok configErrorResponse ∨
    (tryPOST inv).1 = .ok emptyBodyResponse ∨
    (∃ e, (tryPOST inv).1 = .ok (parseErrorResponse e)) ∨
    (tryPOST inv).1 = .ok missingFieldsResponse ∨
    (tryPOST inv).1 = .ok successResponse ∨
    (∃ e, (tryPOST inv).1 = .error e) := by
  by_cases hc : (!(jsTruthy inv.env.MJ_APIKEY_PUBLIC) ||
      !(jsTruthy inv.env.MJ_APIKEY_PRIVATE)) = true
  · exact Or.inl (by rw [tryPOST, if_pos hc])
  · have hcred : jsTruthy inv.env.MJ_APIKEY_PUBLIC = true ∧
        jsTruthy inv.env.MJ_APIKEY_PRIVATE = true := by simpa using hc
    cases hps : parseStep inv with
    | inl resp =>
      have ht : (tryPOST inv).1 = .ok resp := by
        rw [tryPOST_creds inv hcred.1 hcred.2, hps]
      rcases parseStep_inl_cases inv resp hps with h | ⟨e, h⟩
      · subst h; exact Or.inr (Or.inl ht)
      · subst h; exact Or.inr (Or.inr (Or.inl ⟨e, ht⟩))
    | inr v =>
      cases v with
      | null =>
        have ht : (tryPOST inv).1 = .error nullDestructureError := by
          rw [tryPOST_creds inv hcred.1 hcred.2, hps]
        exact Or.inr (Or.inr (Or.inr (Or.inr (Or.inr ⟨_, ht⟩))))
      | obj d =>
        by_cases hf : (!(jsTruthy d.name) || !(jsTruthy d.email) ||
            !(jsTruthy d.service)) = true
        · have h2 : tryPOST inv = (.ok missingFieldsResponse, none) := by
            rw [tryPOST_creds inv hcred.1 hcred.2, hps]
            exact if_pos hf
          exact Or.inr (Or.inr (Or.inr (Or.inl (by rw [h2]))))
        · have h2 : tryPOST inv = (fetchPhase inv, some (mailjetPayload inv.env d)) := by
            rw [tryPOST_creds inv hcred.1 hcred.2, hps]
            exact if_neg hf
          have ht : (tryPOST inv).1 = fetchPhase inv := by rw [h2]
          rw [ht, fetchPhase]
          cases inv.fetchResult with
          | error e => exact Or.inr (Or.inr (Or.inr (Or.inr (Or.inr ⟨e, rfl⟩))))
          | ok resp =>
            cases inv.jsonResult with
            | error e => exact Or.inr (Or.inr (Or.inr (Or.inr (Or.inr ⟨e, rfl⟩))))
            | ok result =>
              by_cases hcond : (resp.ok && messagesNonempty result) = true
              · exact Or.inr (Or.inr (Or.inr (Or.inr (Or.inl (if_pos hcond)))))
              · exact Or.inr (Or.inr (Or.inr (Or.inr (Or.inr ⟨_, if_neg hcond⟩))))

/-- C10: on every control-flow branch the handler returns exactly one
response (it is a total function); that response has status 200, 400 or
500, carries `Content-Type: application/json`, its body has a success
field on the 200 branch, and an error field on every 400 and 500 branch. -/
theorem claim_C10_response_invariants (inv : Invocation) :
    ((POST inv).status = 200 ∨ (POST inv).status = 400 ∨ (POST inv).status = 500) ∧
    (POST inv).contentType = "application/json" ∧
    ((POST inv).status = 200 → (POST inv).body.success.isSome = true) ∧
    (((POST inv).status = 400 ∨ (POST inv).status = 500) →
      (POST inv).body.error.isSome = true) := by
  rcases tryPOST_cases inv with h | h | ⟨e, h⟩ | h | h | ⟨e, h⟩ <;>
    rw [POST, h] <;>
    simp [configErrorResponse, emptyBodyResponse, parseErrorResponse,
      missingFieldsResponse, successResponse, catchErrorResponse]

end ContactForm

namespace ContactForm

/-- C8: when all seven fields are present and non-empty, both rendered
bodies contain every submitted field's value verbatim as a substring. -/
theorem claim_C8_fields_rendered (d : SubmissionData)
    (n em ph sv ed ms al : String)
    (hn : d.name = some n) (hn2 : n ≠ "")
    (hem : d.email = some em) (hem2 : em ≠ "")
    (hph : d.phone = some ph) (hph2 : ph ≠ "")
    (hsv : d.service = some sv) (hsv2 : sv ≠ "")
    (hed : d.eventDate = some ed) (hed2 : ed ≠ "")
    (hms : d.message = some ms) (hms2 : ms ≠ "")
    (hal : d.allergies = some al) (hal2 : al ≠ "")
    (v : String) (hv : v ∈ [n, em, ph, sv, ed, ms, al]) :
    containsStr (htmlContent d) v = true ∧
      containsStr (textContent d) v = true := by
  simp only [htmlContent, textContent, hn, hem, hph, hsv, hed, hms, hal,
    jsTruthy_some hph2, jsTruthy_some hed2, jsTruthy_some hal2,
    jsOr_some_ne _ hms2, jsStr_some, if_true]
  simp only [List.mem_cons, List.not_mem_nil, or_false] at hv
  rcases hv with rfl | rfl | rfl | rfl | rfl | rfl | rfl <;>
    refine ⟨?_, ?_⟩ <;>
    · rw [containsStr]
      simp only [data_app, List.append_assoc]
      repeat first
        | exact occurs_pref _ _
        | apply occurs_appR

end ContactForm

namespace ContactForm

/-- Witness for C8: the phone value of the fully-populated submission
appears in both renderings. -/
theorem claim_C8_witness :
    containsStr (htmlContent dFull) "555-0100" = true ∧
      containsStr (textContent dFull) "555-0100" = true :=
  claim_C8_fields_rendered dFull "Alice Smith" "alice@example.com"
    "555-0100" "Wedding Catering" "2026-06-01" "Dinner for forty guests"
    "peanuts" rfl (by decide) rfl (by decide) rfl (by decide) rfl (by decide)
    rfl (by decide) rfl (by decide) rfl (by decide) "555-0100" (by simp)

/-- C9: whenever the Mailjet call was made for a submission whose service
field holds `sv`, the single outbound message's subject is exactly the
interpolation of `sv`, and `sv` occurs verbatim in the subject and in both
body renderings. -/
theorem claim_C9_service_roundtrip (inv : Invocation) (pl : OutboundPayload)
    (d : SubmissionData) (sv : String)
    (hsent : sentPayload inv = some pl)
    (hparse : inv.parseResult = .ok (JsValue.obj d))
    (hs : d.service = some sv) :
    ∃ msg, pl.Messages = [msg] ∧
      msg.Subject = "New Contact Form Submission - " ++ sv ∧
      containsStr msg.Subject sv = true ∧
      containsStr msg.HTMLPart sv = true ∧
      containsStr msg.TextPart sv = true := by
  obtain ⟨d0, hps, _, _, _, _, _, hpl, _⟩ := sentPayload_some inv pl hsent
  have hd : d0 = d := by
    have h1 := (parseStep_inr inv _ hps).1
    rw [hparse] at h1
    have h2 : JsValue.obj d = JsValue.obj d0 := by simpa using h1
    cases h2
    rfl
  subst hd
  subst hpl
  rw [mailjetPayload]
  refine ⟨_, rfl, ?_, ?_, ?_, ?_⟩
  · rw [hs, jsStr_some]
  · rw [hs, jsStr_some, containsStr, data_app]
    exact occurs_appR _ _ _ (occurs_self _)
  · rw [containsStr]
    simp only [htmlContent, hs, jsStr_some, data_app, List.append_assoc]
    repeat first
      | exact occurs_pref _ _
      | apply occurs_appR
  · rw [containsStr]
    simp only [textContent, hs, jsStr_some, data_app, List.append_assoc]
    repeat first
      | exact occurs_pref _ _
      | apply occurs_appR

end ContactForm

namespace ContactForm

/-- Witness for C9 at a concrete invocation. -/
theorem claim_C9_witness :
    ∃ msg, (mailjetPayload envFull dFull).Messages = [msg] ∧
      msg.Subject = "New Contact Form Submission - " ++ "Wedding Catering" ∧
      containsStr msg.Subject "Wedding Catering" = true ∧
      containsStr msg.HTMLPart "Wedding Catering" = true ∧
      containsStr msg.TextPart "Wedding Catering" = true :=
  claim_C9_service_roundtrip invC1 (mailjetPayload envFull dFull) dFull
    "Wedding Catering" rfl rfl rfl

/-- A well-formed submission with the optional fields absent whose `name`
value itself contains the text "Phone:". -/
def dC7bad : SubmissionData :=
  { name := some "Phone: 555-0100", email := some "alice@example.com",
    phone := none, service := some "Wedding Catering", eventDate := none,
    message := none, allergies := none }

/-- C7 counterexample: a well-formed submission with all optional fields
absent in which the label text "Phone:" nevertheless appears in the
rendered HTML body, because the submitted `name` value contains it; so
"no such label or value appears" fails as stated. -/
theorem claim_C7_counterexample :
    jsTruthy dC7bad.name = true ∧ jsTruthy dC7bad.email = true ∧
    jsTruthy dC7bad.service = true ∧ dC7bad.phone = none ∧
    dC7bad.eventDate = none ∧ dC7bad.message = none ∧
    dC7bad.allergies = none ∧
    containsStr (htmlContent dC7bad) "Phone:" = true ∧
    containsStr (textContent dC7bad) "Phone:" = true := by
  decide

/-- C7 (amended): for a well-formed submission with phone, event-date,
message and allergies absent, both renderings contain the placeholder
"No message provided"; and provided the submitted name, email and service
values do not themselves contain the label texts "Phone:", "Event Date:"
or "Allergies", none of those labels appears in either rendering. -/
theorem claim_C7_no_optional_sections (d : SubmissionData) (n em sv : String)
    (hn : d.name = some n) (hn2 : n ≠ "")
    (hem : d.email = some em) (hem2 : em ≠ "")
    (hsv : d.service = some sv) (hsv2 : sv ≠ "")
    (hph : d.phone = none) (hed : d.eventDate = none)
    (hms : d.message = none) (hal : d.allergies = none)
    (hlab : ∀ lab ∈ ["Phone:", "Event Date:", "Allergies"],
      ∀ v ∈ [n, em, sv], containsStr v lab = false) :
    containsStr (htmlContent d) "No message provided" = true ∧
    containsStr (textContent d) "No message provided" = true ∧
    ∀ lab ∈ ["Phone:", "Event Date:", "Allergies"],
      containsStr (htmlContent d) lab = false ∧
      containsStr (textContent d) lab = false := by
  have Hn : ∀ lab ∈ (["Phone:", "Event Date:", "Allergies"] : List String),
      occurs lab.data n.data = false := fun l hl => hlab l hl n (by simp)
  have Hem : ∀ lab ∈ (["Phone:", "Event Date:", "Allergies"] : List String),
      occurs lab.data em.data = false := fun l hl => hlab l hl em (by simp)
  have Hsv : ∀ lab ∈ (["Phone:", "Event Date:", "Allergies"] : List String),
      occurs lab.data sv.data = false := fun l hl => hlab l hl sv (by simp)
  simp only [htmlContent, textContent, hn, hem, hsv, hph, hed, hms, hal,
    jsStr_some, jsOr, jsTruthy, Bool.false_eq_true, if_false]
  refine ⟨?_, ?_, ?_⟩
  · rw [containsStr]
    simp only [data_app, data_nil, List.append_assoc, List.append_nil,
      List.nil_append]
    repeat first
      | exact occurs_pref _ _
      | apply occurs_appR
  · rw [containsStr]
    simp only [data_app, data_nil, List.append_assoc, List.append_nil,
      List.nil_append]
    repeat first
      | exact occurs_pref _ _
      | apply occurs_appR
  · intro lab hl
    simp only [List.mem_cons, List.not_mem_nil, or_false] at hl
    rcases hl with rfl | rfl | rfl <;>
      refine ⟨?_, ?_⟩ <;>
      · rw [containsStr]
        simp only [data_app, data_nil, List.append_assoc, List.append_nil,
          List.nil_append]
        repeat first
          | refine noOccur_fixPart _ _ _ (by decide) (by decide) ?_
          | refine noOccur_varPart _ _ _ _ (Hn _ (by simp)) (by decide)
              (by decide) ?_
          | refine noOccur_varPart _ _ _ _ (Hem _ (by simp)) (by decide)
              (by decide) ?_
          | refine noOccur_varPart _ _ _ _ (Hsv _ (by simp)) (by decide)
              (by decide) ?_
          | exact (by decide)

end ContactForm

namespace ContactForm

/-- A well-formed submission with optional fields absent whose required
values contain none of the label texts. -/
def dC7w : SubmissionData :=
  { name := some "Alice", email := some "alice@example.com", phone := none,
    service := some "Dinner Party", eventDate := none, message := none,
    allergies := none }

/-- Witness for the amended C7 at a concrete submission. -/
theorem claim_C7_witness :
    containsStr (htmlContent dC7w) "No message provided" = true ∧
    containsStr (htmlContent dC7w) "Phone:" = false ∧
    containsStr (textContent dC7w) "Event Date:" = false := by
  have h := claim_C7_no_optional_sections dC7w "Alice" "alice@example.com"
    "Dinner Party" rfl (by decide) rfl (by decide) rfl (by decide) rfl rfl
    rfl rfl (by decide)
  exact ⟨h.1, (h.2.2 "Phone:" (by simp)).1, (h.2.2 "Event Date:" (by simp)).2⟩

end ContactForm
